import Mathlib

/-!
Shallow embedding of the Tetris-variant board engine (`Game` class in the
repository's game logic module).  Pure data is modelled directly; the one
impure ingredient, `Math.random` inside `generateRandomShape`, is modelled as
an explicit stream of pending random draws (`rng : List Nat`) carried in the
engine state, per the spec's injectable-random-source design note.  JS numbers
used for timing (`fallTimer`, fall speeds, `deltaTime`) are modelled as
rationals; board cells and counters are naturals; pivot coordinates are
integers (they go negative transiently).
-/

namespace Tetris

/-- Constant `GRID_WIDTH = 10`. -/
def GRID_WIDTH : Nat := 10

/-- Constant `GRID_HEIGHT = 20`. -/
def GRID_HEIGHT : Nat := 20

/-- Constant `PREVIEW_COUNT = 3`. -/
def PREVIEW_COUNT : Nat := 3

/-- Constant `BASE_FALL_SPEED = 0.8` seconds per step. -/
def BASE_FALL_SPEED : ℚ := 8 / 10

/-- Constant `FAST_FALL_SPEED = 0.05` seconds per step. -/
def FAST_FALL_SPEED : ℚ := 5 / 100

/-- Constant `LEVEL_UP_LINES = 10`. -/
def LEVEL_UP_LINES : Nat := 10

/-- Constant `SPEED_INCREASE_FACTOR = 0.9`. -/
def SPEED_INCREASE_FACTOR : ℚ := 9 / 10

/-- Constant `SCORE_PER_LINE = [0, 100, 300, 500, 800]`. -/
def SCORE_PER_LINE : List Nat := [0, 100, 300, 500, 800]

/-- A shape: a list of `[dx, dy]` offsets relative to the pivot, plus a color
index (`SHAPES` entries in the source). -/
structure Shape where
  shape : List (Int × Int)
  colorIndex : Nat
  deriving DecidableEq, Repr

/-- The fixed catalog `SHAPES` of 7 shapes (I, O, T, S, Z, J, L). -/
def SHAPES : List Shape :=
  [ ⟨[(0, 0), (-1, 0), (1, 0), (2, 0)], 0⟩,
    ⟨[(0, 0), (1, 0), (0, 1), (1, 1)], 1⟩,
    ⟨[(0, 0), (-1, 0), (1, 0), (0, 1)], 2⟩,
    ⟨[(0, 0), (-1, 0), (0, -1), (1, -1)], 3⟩,
    ⟨[(0, 0), (1, 0), (0, -1), (-1, -1)], 4⟩,
    ⟨[(0, 0), (-1, 0), (1, 0), (-1, 1)], 5⟩,
    ⟨[(0, 0), (-1, 0), (1, 0), (1, 1)], 6⟩ ]

/-- The `GameState` enumeration. -/
inductive GameState where
  | PLAYING
  | GAME_OVER
  deriving DecidableEq, Repr

/-- A pivot position `{x, y}`. -/
structure Position where
  x : Int
  y : Int
  deriving DecidableEq, Repr

/-- The per-frame input record `{ moveLeft, moveRight, drop, selectShape }`;
`selectShape` is `none` for JS `null`. -/
structure Inputs where
  moveLeft : Bool
  moveRight : Bool
  drop : Bool
  selectShape : Option Int
  deriving DecidableEq, Repr

/-- The engine state: the fields of the `Game` class, plus `rng`, the explicit
stream of pending `Math.random` draws (each draw is used modulo the catalog
size). -/
structure Game where
  gridWidth : Nat
  gridHeight : Nat
  board : List (List Nat)
  currentPiece : Option Shape
  currentPosition : Position
  nextShapes : List Shape
  score : Nat
  linesCleared : Nat
  level : Nat
  fallTimer : ℚ
  currentFallSpeed : ℚ
  isDropping : Bool
  gameState : GameState
  rng : List Nat
  deriving DecidableEq, Repr

/-- JS `x || d` on the numeric config fields: `0` (and an absent field) falls
back to the default. -/
def jsOr (x : Option Nat) (d : Nat) : Nat :=
  match x with
  | some n => if n = 0 then d else n
  | none => d

/-- Grid configuration passed to the constructor. -/
structure GridConfig where
  width : Option Nat
  height : Option Nat

/-- The `Game` constructor: stores the (defaulted) dimensions and the initial
field values; `rng` is the injected stream of random draws. -/
def Game.new (cfg : GridConfig) (rng : List Nat) : Game where
  gridWidth := jsOr cfg.width GRID_WIDTH
  gridHeight := jsOr cfg.height GRID_HEIGHT
  board := []
  currentPiece := none
  currentPosition := ⟨0, 0⟩
  nextShapes := []
  score := 0
  linesCleared := 0
  level := 1
  fallTimer := 0
  currentFallSpeed := BASE_FALL_SPEED
  isDropping := false
  gameState := GameState.PLAYING
  rng := rng

/-- The cell test `this.board[checkY] && this.board[checkY][checkX] !== 0`
(arguments in `y`, `x` order, mirroring `board[y][x]`).  A missing row makes
the JS conjunction falsy (no collision); a missing cell inside an existing row
gives `undefined !== 0`, which is `true` (collision). -/
def cellBlocked (board : List (List Nat)) (y x : Nat) : Bool :=
  match board.get? y with
  | none => false
  | some row =>
    match row.get? x with
    | none => true
    | some c => decide (c ≠ 0)

/-- `Game.isValidMove(piece, position)`.  For each offset: if the column is out
of `[0, width)` or the row is negative, the offset is rejected unless the row
is `≥ height` (the `continue`); otherwise a row `< height` landing on a
blocked cell is rejected. -/
def Game.isValidMove (g : Game) (piece : Option Shape) (position : Position) : Bool :=
  match piece with
  | none => false
  | some p =>
    p.shape.all fun off =>
      let checkX := position.x + off.1
      let checkY := position.y + off.2
      if checkX < 0 ∨ (g.gridWidth : Int) ≤ checkX ∨ checkY < 0 then
        decide ((g.gridHeight : Int) ≤ checkY)
      else
        !(decide (checkY < (g.gridHeight : Int)) && cellBlocked g.board checkY.toNat checkX.toNat)

/-- One draw of `generateRandomShape()`: the shape produced by the head of the
`rng` stream (`Math.floor(Math.random() * SHAPES.length)` is the head taken
modulo the catalog size).  An exhausted stream repeats the first catalog
shape; intended use supplies a long-enough stream. -/
def nextRandomShape (g : Game) : Shape :=
  match g.rng with
  | [] => SHAPES.getD 0 ⟨[], 0⟩
  | i :: _ => SHAPES.getD (i % SHAPES.length) ⟨[], 0⟩

/-- The state after one `generateRandomShape()` call: the `Math.random` draw
is consumed. -/
def consumeRng (g : Game) : Game :=
  match g.rng with
  | [] => g
  | _ :: rest => { g with rng := rest }

/-- `Game.generateRandomShape()`: returns a (copy of a) random catalog shape
and the state with one random draw consumed. -/
def Game.generateRandomShape (g : Game) : Shape × Game :=
  (nextRandomShape g, consumeRng g)

/-- The fold computing `maxY` in `spawnNewPiece`: starts at `0`, takes each
`dy` that strictly exceeds the accumulator. -/
def shapeMaxDy (s : Shape) : Int :=
  s.shape.foldl (fun m off => if off.2 > m then off.2 else m) 0

/-- `Game.spawnNewPiece()`: resets drop state and fall timer, centers the
pivot horizontally and places it so the topmost occupied offset sits at the
top row, then validates; an invalid spawn transitions to `GAME_OVER` and
clears the piece. -/
def Game.spawnNewPiece (g : Game) : Game :=
  let g1 : Game :=
    { g with
      isDropping := false
      fallTimer := 0
      currentPosition := ⟨((g.gridWidth / 2 : Nat) : Int), (g.gridHeight : Int) - 1⟩ }
  let g2 : Game :=
    match g1.currentPiece with
    | none => g1
    | some p =>
      { g1 with
        currentPosition :=
          { g1.currentPosition with y := (g.gridHeight : Int) - 1 - shapeMaxDy p } }
  if g2.isValidMove g2.currentPiece g2.currentPosition then g2
  else { g2 with gameState := GameState.GAME_OVER, currentPiece := none }

/-- `Game.selectShape(index)`: an index outside `[0, queue length)` falls back
to `0` (a `Shape` object is always truthy, so the JS `!this.nextShapes[index]`
test only fires — as the early return — when the queue is empty); the chosen
shape is spliced out, one fresh random shape is appended, and the chosen shape
is spawned. -/
def Game.selectShape (g : Game) (index : Int) : Game :=
  let index' : Int :=
    if index < 0 ∨ (g.nextShapes.length : Int) ≤ index then 0 else index
  match g.nextShapes.get? index'.toNat with
  | none => g
  | some s =>
    let g1 : Game :=
      { g with
        currentPiece := some s
        nextShapes := g.nextShapes.eraseIdx index'.toNat }
    let pr := g1.generateRandomShape
    let g2 : Game := { pr.2 with nextShapes := pr.2.nextShapes ++ [pr.1] }
    g2.spawnNewPiece

/-- Row test `this.board[y].every(cell => cell !== 0)`. -/
def rowFull (row : List Nat) : Bool :=
  row.all fun c => decide (c ≠ 0)

/-- The `clearLines` row scan, written on the suffix of rows not yet examined.
The JS loop walks `y` upward; on a full row it splices the row out, pushes an
empty row at the board's end (within the unexamined suffix) and decrements `y`
to re-check the row that shifted into the same index.  `fuel` bounds the
iteration count (the JS loop would not terminate on a zero-width grid, where
the appended empty row is itself full); any `fuel ≥ 2 * length + 1` is enough
when the width is positive.  Returns the scanned board and the number of rows
cleared. -/
def scanRowsFuel (width : Nat) : Nat → List (List Nat) → List (List Nat) × Nat
  | 0, b => (b, 0)
  | _ + 1, [] => ([], 0)
  | fuel + 1, r :: rest =>
    if rowFull r then
      let p := scanRowsFuel width fuel (rest ++ [List.replicate width 0])
      (p.1, p.2 + 1)
    else
      let p := scanRowsFuel width fuel rest
      (r :: p.1, p.2)

/-- The scan performed by one `clearLines()` call.  The JS loop bound is
`gridHeight`; it coincides with scanning the whole row list on every state
satisfying the dimension invariant (`board.length = gridHeight`), which is
the only situation in which the JS code runs without an out-of-bounds read. -/
def Game.scanBoard (g : Game) : List (List Nat) × Nat :=
  scanRowsFuel g.gridWidth (2 * g.board.length + 1) g.board

/-- `Game.clearLines()`: removes full rows (appending empty rows on top), then
if any were cleared adds `SCORE_PER_LINE[n] * level` to the score (using the
pre-update level), adds `n` to the cumulative counter, and recomputes the
level and fall speed from the counter.  For `n > 4` the JS indexing yields
`undefined` and poisons the score with `NaN`; the model returns the list
default there, and every theorem about scoring restricts to `n ≤ 4`. -/
def Game.clearLines (g : Game) : Game :=
  let p := g.scanBoard
  let g1 : Game := { g with board := p.1 }
  if 0 < p.2 then
    let g2 : Game :=
      { g1 with
        score := g1.score + SCORE_PER_LINE.getD p.2 0 * g1.level
        linesCleared := g1.linesCleared + p.2 }
    let newLevel := g2.linesCleared / LEVEL_UP_LINES + 1
    if newLevel > g2.level then
      { g2 with
        level := newLevel
        currentFallSpeed :=
          max FAST_FALL_SPEED (BASE_FALL_SPEED * SPEED_INCREASE_FACTOR ^ (newLevel - 1)) }
    else g2
  else g1

/-- Writing one cell `board[y][x] = v`.  On invariant-satisfying boards the
indices handed to this function are in range; a missing row is returned
unchanged (the JS code would have thrown there). -/
def setCell (b : List (List Nat)) (y x v : Nat) : List (List Nat) :=
  match b.get? y with
  | none => b
  | some row => b.set y (row.set x v)

/-- The board after `placePiece()` writes the piece `p` at the current pivot:
each offset whose absolute cell is inside the board receives
`colorIndex + 1`. -/
def Game.placedBoard (g : Game) (p : Shape) : List (List Nat) :=
  p.shape.foldl
    (fun b off =>
      let boardX := g.currentPosition.x + off.1
      let boardY := g.currentPosition.y + off.2
      if 0 ≤ boardY ∧ boardY < (g.gridHeight : Int) ∧
          0 ≤ boardX ∧ boardX < (g.gridWidth : Int) then
        setCell b boardY.toNat boardX.toNat (p.colorIndex + 1)
      else b)
    g.board

/-- Number of lines the `clearLines` call inside `placePiece` clears once the
piece `p` has been written to the board (the scan count of the written
board). -/
def Game.placedScanCount (g : Game) (p : Shape) : Nat :=
  (scanRowsFuel g.gridWidth (2 * (g.placedBoard p).length + 1) (g.placedBoard p)).2

/-- `Game.placePiece()`: writes the piece's in-bounds cells, runs `clearLines`
once, then clears the active piece and the dropping flag. -/
def Game.placePiece (g : Game) : Game :=
  match g.currentPiece with
  | none => g
  | some p =>
    let g1 : Game := ({ g with board := g.placedBoard p }).clearLines
    { g1 with currentPiece := none, isDropping := false }

/-- `Game.moveHorizontal(direction)`: no-op unless playing with an active
piece; a valid sideways step commits the position and resets the fall
timer. -/
def Game.moveHorizontal (g : Game) (direction : Int) : Game :=
  if g.gameState ≠ GameState.PLAYING ∨ g.currentPiece = none then g
  else
    let newPosition : Position :=
      { g.currentPosition with x := g.currentPosition.x + direction }
    if g.isValidMove g.currentPiece newPosition then
      { g with currentPosition := newPosition, fallTimer := 0 }
    else g

/-- `Game.moveDown()`: no-op unless playing with an active piece; a valid step
moves the pivot down one row, otherwise the piece is placed and the active
piece cleared; in either branch the fall timer is reset afterwards. -/
def Game.moveDown (g : Game) : Game :=
  if g.gameState ≠ GameState.PLAYING ∨ g.currentPiece = none then g
  else
    let newPosition : Position :=
      { g.currentPosition with y := g.currentPosition.y - 1 }
    let g1 : Game :=
      if g.isValidMove g.currentPiece newPosition then
        { g with currentPosition := newPosition }
      else
        { g.placePiece with currentPiece := none }
    { g1 with fallTimer := 0 }

/-- `Game.startDropping()`: sets the fast-fall flag while playing with an
active piece. -/
def Game.startDropping (g : Game) : Game :=
  if g.gameState = GameState.PLAYING ∧ g.currentPiece ≠ none then
    { g with isDropping := true }
  else g

/-- `Game.update(deltaTime, inputs)`: the per-frame entry point.  Selection is
routed to `selectShape` only when there is no active piece, and ends the
frame; otherwise movement flags are applied in order, the fall timer
accumulates, and one `moveDown` fires when the timer reaches the effective
speed. -/
def Game.update (g : Game) (deltaTime : ℚ) (inputs : Inputs) : Game :=
  if g.gameState ≠ GameState.PLAYING then g
  else if g.currentPiece = none ∧ inputs.selectShape ≠ none then
    g.selectShape (inputs.selectShape.getD 0)
  else if g.currentPiece ≠ none then
    let g1 : Game := if inputs.moveLeft then g.moveHorizontal (-1) else g
    let g2 : Game := if inputs.moveRight then g1.moveHorizontal 1 else g1
    let g3 : Game := if inputs.drop then g2.startDropping else g2
    let g4 : Game := { g3 with fallTimer := g3.fallTimer + deltaTime }
    let speed := if g4.isDropping then FAST_FALL_SPEED else g4.currentFallSpeed
    if speed ≤ g4.fallTimer then g4.moveDown else g4
  else g

/-- The loop in `init()` pushing `PREVIEW_COUNT` freshly generated shapes onto
the preview queue. -/
def pushRandomShapes : Nat → Game → Game
  | 0, g => g
  | n + 1, g =>
    let pr := g.generateRandomShape
    pushRandomShapes n { pr.2 with nextShapes := pr.2.nextShapes ++ [pr.1] }

/-- `Game.init()`: empty board, reset scalars, fill the preview queue with 3
random shapes, then auto-select slot 0. -/
def Game.init (g : Game) : Game :=
  let g1 : Game :=
    { g with
      board := List.replicate g.gridHeight (List.replicate g.gridWidth 0)
      score := 0
      linesCleared := 0
      level := 1
      currentFallSpeed := BASE_FALL_SPEED
      isDropping := false
      fallTimer := 0
      gameState := GameState.PLAYING
      nextShapes := [] }
  (pushRandomShapes PREVIEW_COUNT g1).selectShape 0

/-! ## Concrete states used by witnesses and counterexamples -/

/-- Small concrete state: a 2-wide, 3-high board whose bottom row is full. -/
def witnessGameC2 : Game :=
  { Game.new ⟨some 2, some 3⟩ [] with
    board := [[1, 2], [0, 0], [3, 0]] }

/-- Small concrete state: a 1-wide, 1-high board whose single row is full and
9 lines already cleared. -/
def witnessGameC3 : Game :=
  { Game.new ⟨some 1, some 1⟩ [] with
    board := [[5]]
    linesCleared := 9 }

/-- Small concrete state: a 1-wide, 1-high empty board holding a single-cell
active piece at the origin. -/
def witnessGameC4 : Game :=
  { Game.new ⟨some 1, some 1⟩ [] with
    board := [[0]]
    currentPiece := some ⟨[(0, 0)], 0⟩
    currentPosition := ⟨0, 0⟩ }

/-- Spec-side validity predicate (refinement target for C1), following the
spec sentences as amended by the counterexample: an offset whose absolute row
is at least `height` is always open — even when its column is out of range —
and every other offset needs its column in `[0, width)`, a non-negative row,
and an unblocked board cell. -/
def validSpec (g : Game) (p : Shape) (pos : Position) : Prop :=
  ∀ off ∈ p.shape,
    (g.gridHeight : Int) ≤ pos.y + off.2 ∨
    (0 ≤ pos.x + off.1 ∧ pos.x + off.1 < (g.gridWidth : Int) ∧
      0 ≤ pos.y + off.2 ∧ pos.y + off.2 < (g.gridHeight : Int) ∧
      cellBlocked g.board (pos.y + off.2).toNat (pos.x + off.1).toNat = false)

/-- Concrete state for the C1 counterexample: the default 10-by-20 empty
board. -/
def c1Game : Game :=
  { Game.new ⟨none, none⟩ [] with
    board := List.replicate 20 (List.replicate 10 0) }

/-- Small concrete terminal state. -/
def witnessGameC8 : Game :=
  { Game.new ⟨some 1, some 1⟩ [] with
    board := [[0]]
    gameState := GameState.GAME_OVER }

/-- Concrete state holding the I-shape as the active piece over the default
empty 10-by-20 board. -/
def witnessGameC5 : Game :=
  { Game.new ⟨none, none⟩ [] with
    board := List.replicate 20 (List.replicate 10 0)
    currentPiece := some ⟨[(0, 0), (-1, 0), (1, 0), (2, 0)], 0⟩ }

/-- The effective queue index used by `selectShape`: an index outside
`[0, queue length)` falls back to `0`. -/
def effIndex (g : Game) (i : Int) : Nat :=
  (if i < 0 ∨ (g.nextShapes.length : Int) ≤ i then (0 : Int) else i).toNat

/-- Dimension invariant of a bare board: exactly `h` rows of exactly `w`
cells. -/
def boardDims (w h : Nat) (b : List (List Nat)) : Prop :=
  b.length = h ∧ ∀ row ∈ b, row.length = w

/-- Dimension invariant of an engine state. -/
def dimsOk (g : Game) : Prop :=
  boardDims g.gridWidth g.gridHeight g.board

/-- Engine states reachable from initialization by the public operations. -/
inductive Reachable : Game → Prop where
  | init (cfg : GridConfig) (rng : List Nat) : Reachable ((Game.new cfg rng).init)
  | selectShape {g : Game} (i : Int) : Reachable g → Reachable (g.selectShape i)
  | moveHorizontal {g : Game} (d : Int) : Reachable g → Reachable (g.moveHorizontal d)
  | moveDown {g : Game} : Reachable g → Reachable g.moveDown
  | startDropping {g : Game} : Reachable g → Reachable g.startDropping
  | placePiece {g : Game} : Reachable g → Reachable g.placePiece
  | clearLines {g : Game} : Reachable g → Reachable g.clearLines
  | update {g : Game} (dt : ℚ) (inputs : Inputs) :
      Reachable g → Reachable (g.update dt inputs)

/-- Driving the engine with a sequence of `(deltaTime, inputs)` frames. -/
def runUpdates (g : Game) (steps : List (ℚ × Inputs)) : Game :=
  steps.foldl (fun s st => s.update st.1 st.2) g

/-- Frame input selecting preview slot 0. -/
def selectInputs : Inputs :=
  ⟨false, false, false, some 0⟩

/-- Two engine states for the C6 counterexample: identical in every
`Game`-class field (board, piece, position, preview queue, score, lines,
level, timers, speed, flags, status) and differing only in the pending
`Math.random` draw. -/
def c6GameA : Game :=
  { Game.new ⟨none, none⟩ [0] with
    board := List.replicate 20 (List.replicate 10 0)
    currentFallSpeed := 1
    nextShapes :=
      [⟨[(0, 0), (-1, 0), (1, 0), (2, 0)], 0⟩,
        ⟨[(0, 0), (1, 0), (0, 1), (1, 1)], 1⟩,
        ⟨[(0, 0), (-1, 0), (1, 0), (0, 1)], 2⟩] }

/-- Same state as `c6GameA` except for the pending random draw. -/
def c6GameB : Game :=
  { c6GameA with rng := [1] }

/-- Concrete awaiting-selection state with a 3-shape preview queue. -/
def witnessGameC7 : Game :=
  { Game.new ⟨none, none⟩ [4] with
    board := List.replicate 20 (List.replicate 10 0)
    nextShapes :=
      [⟨[(0, 0), (-1, 0), (1, 0), (2, 0)], 0⟩,
        ⟨[(0, 0), (1, 0), (0, 1), (1, 1)], 1⟩,
        ⟨[(0, 0), (-1, 0), (1, 0), (0, 1)], 2⟩] }

/-- Concrete playing state that still has an active piece and a non-empty
preview queue. -/
def witnessGameC10 : Game :=
  { witnessGameC7 with
    currentPiece := some ⟨[(0, 0), (1, 0), (0, 1), (1, 1)], 1⟩
    currentPosition := ⟨5, 10⟩ }

/-- Concrete freshly initialized engine on a 4-by-5 grid. -/
def witnessGameC9 : Game :=
  (Game.new ⟨some 4, some 5⟩ [0, 1, 2, 3]).init

/-! ## Lemmas about the line-clear scan -/

/-- Number of full rows of a board. -/
def fullCount (b : List (List Nat)) : Nat :=
  (b.filter rowFull).length

theorem rowFull_replicate_zero {w : Nat} (hw : 0 < w) :
    rowFull (List.replicate w 0) = false := by
  cases w with
  | zero => omega
  | succ n => simp [rowFull, List.replicate_succ]

theorem fullCount_le_length (b : List (List Nat)) : fullCount b ≤ b.length :=
  List.length_filter_le _ _

theorem scanRowsFuel_length (w fuel : Nat) (b : List (List Nat)) :
    (scanRowsFuel w fuel b).1.length = b.length := by
  induction fuel generalizing b with
  | zero => rfl
  | succ fuel ih =>
    cases b with
    | nil => rfl
    | cons r rest =>
      by_cases h : rowFull r = true
      · simp [scanRowsFuel, h, ih]
      · simp [scanRowsFuel, h, ih]

theorem scanRowsFuel_mem (w fuel : Nat) (b : List (List Nat)) (row : List Nat)
    (h : row ∈ (scanRowsFuel w fuel b).1) :
    row ∈ b ∨ row = List.replicate w 0 := by
  induction fuel generalizing b with
  | zero => exact Or.inl h
  | succ fuel ih =>
    cases b with
    | nil => simp [scanRowsFuel] at h
    | cons r rest =>
      by_cases hf : rowFull r = true
      · simp only [scanRowsFuel, hf, if_pos] at h
        rcases ih _ h with hm | he
        · rcases List.mem_append.mp hm with h1 | h2
          · exact Or.inl (List.mem_cons_of_mem _ h1)
          · simp only [List.mem_singleton] at h2
            exact Or.inr h2
        · exact Or.inr he
      · simp only [scanRowsFuel, hf, if_neg, Bool.false_eq_true, not_false_iff,
          List.mem_cons] at h
        rcases h with rfl | h
        · exact Or.inl (List.mem_cons_self _ _)
        · rcases ih _ h with hm | he
          · exact Or.inl (List.mem_cons_of_mem _ hm)
          · exact Or.inr he

theorem scanRowsFuel_spec {w : Nat} (hw : 0 < w) :
    ∀ fuel b, b.length + fullCount b ≤ fuel →
      scanRowsFuel w fuel b =
        (b.filter (fun r => !rowFull r) ++
            List.replicate (fullCount b) (List.replicate w 0),
          fullCount b) := by
  intro fuel
  induction fuel with
  | zero =>
    intro b hb
    have hbnil : b = [] := by
      cases b with
      | nil => rfl
      | cons r rest => simp at hb
    subst hbnil
    simp [scanRowsFuel, fullCount]
  | succ fuel ih =>
    intro b hb
    cases b with
    | nil => simp [scanRowsFuel, fullCount]
    | cons r rest =>
      by_cases hf : rowFull r = true
      · have hfc : fullCount (rest ++ [List.replicate w 0]) = fullCount rest := by
          simp [fullCount, List.filter_append, rowFull_replicate_zero hw]
        have hcount : fullCount (r :: rest) = fullCount rest + 1 := by
          simp [fullCount, hf]
        have hlen : (rest ++ [List.replicate w 0]).length +
            fullCount (rest ++ [List.replicate w 0]) ≤ fuel := by
          simp only [hfc, List.length_append, List.length_singleton]
          simp only [List.length_cons, hcount] at hb
          omega
        have hrec := ih (rest ++ [List.replicate w 0]) hlen
        simp only [scanRowsFuel, hf, if_pos, hrec]
        simp only [Prod.mk.injEq]
        constructor
        · simp [List.filter_append, hf, rowFull_replicate_zero hw, hcount,
            List.replicate_succ, hfc]
        · simp [hcount, hfc]
      · have hcount : fullCount (r :: rest) = fullCount rest := by
          simp [fullCount, hf]
        have hlen : rest.length + fullCount rest ≤ fuel := by
          simp only [List.length_cons, hcount] at hb
          omega
        have hrec := ih rest hlen
        simp only [scanRowsFuel, hf, Bool.false_eq_true, if_neg, not_false_iff, hrec]
        simp [List.filter_cons, hf, hcount]

theorem scanBoard_spec (g : Game) (hw : 0 < g.gridWidth) :
    g.scanBoard =
      (g.board.filter (fun r => !rowFull r) ++
          List.replicate (fullCount g.board) (List.replicate g.gridWidth 0),
        fullCount g.board) := by
  apply scanRowsFuel_spec hw
  have := fullCount_le_length g.board
  omega

/-! ## Claim theorems C2, C3, C4 -/

/-- C2: after `clearLines` no row of the board is full; every full row is
removed, empty rows are appended at the top (the end of the row list), and
the total row count is unchanged across the operation. -/
theorem c2_clear_lines_no_full_rows (g : Game)
    (hw : 0 < g.gridWidth) (hh : g.board.length = g.gridHeight) :
    (∀ row ∈ (g.clearLines).board, rowFull row = false) ∧
    (g.clearLines).board =
      g.board.filter (fun r => !rowFull r) ++
        List.replicate (fullCount g.board) (List.replicate g.gridWidth 0) ∧
    (g.clearLines).board.length = g.board.length := by
  have hboard : (g.clearLines).board = (g.scanBoard).1 := by
    unfold Game.clearLines
    by_cases h0 : 0 < (g.scanBoard).2 <;>
      simp [h0] <;> split <;> rfl
  have hspec := scanBoard_spec g hw
  refine ⟨?_, ?_, ?_⟩
  · intro row hrow
    rw [hboard, hspec] at hrow
    rcases List.mem_append.mp hrow with hmem | hmem
    · have := List.of_mem_filter hmem
      simpa using this
    · have := List.eq_of_mem_replicate hmem
      subst this
      exact rowFull_replicate_zero hw
  · rw [hboard, hspec]
  · rw [hboard]
    unfold Game.scanBoard
    exact scanRowsFuel_length _ _ _

/-- C2 witness: a 2-wide, 3-high board with one full row. -/
theorem c2_witness :
    (0 < witnessGameC2.gridWidth ∧ witnessGameC2.board.length = witnessGameC2.gridHeight) ∧
    ((∀ row ∈ (witnessGameC2.clearLines).board, rowFull row = false) ∧
      (witnessGameC2.clearLines).board =
        witnessGameC2.board.filter (fun r => !rowFull r) ++
          List.replicate (fullCount witnessGameC2.board)
            (List.replicate witnessGameC2.gridWidth 0) ∧
      (witnessGameC2.clearLines).board.length = witnessGameC2.board.length) :=
  ⟨by decide, c2_clear_lines_no_full_rows witnessGameC2 (by decide) (by decide)⟩

/-- C3: a `clearLines` call that clears `n > 0` lines adds exactly `n` to the
cumulative counter, and the new level is `max` of the old level and
`floor(cumulativeLines / 10) + 1`; the level increases exactly when the
formula exceeds the old level (multi-threshold jumps are applied, not capped
at one). -/
theorem c3_level_update (g : Game) (hw : 0 < g.gridWidth)
    (hn : 0 < (g.scanBoard).2) :
    (g.clearLines).linesCleared = g.linesCleared + (g.scanBoard).2 ∧
    (g.clearLines).level =
      max g.level ((g.linesCleared + (g.scanBoard).2) / LEVEL_UP_LINES + 1) ∧
    (g.level < (g.clearLines).level ↔
      g.level < (g.linesCleared + (g.scanBoard).2) / LEVEL_UP_LINES + 1) := by
  clear hw
  unfold Game.clearLines
  simp only [hn, if_true, if_pos]
  split
  · next hlevel =>
    refine ⟨rfl, ?_, ?_⟩ <;> simp <;> omega
  · next hlevel =>
    refine ⟨rfl, ?_, ?_⟩ <;> simp <;> omega

/-- C3 witness: a 1-wide, 1-high board whose single row is full, with 9 lines
already cleared, so the clear crosses a level threshold. -/
theorem c3_witness :
    (0 < witnessGameC3.gridWidth ∧ 0 < (witnessGameC3.scanBoard).2) ∧
    ((witnessGameC3.clearLines).linesCleared =
        witnessGameC3.linesCleared + (witnessGameC3.scanBoard).2 ∧
      (witnessGameC3.clearLines).level =
        max witnessGameC3.level
          ((witnessGameC3.linesCleared + (witnessGameC3.scanBoard).2) /
              LEVEL_UP_LINES + 1) ∧
      (witnessGameC3.level < (witnessGameC3.clearLines).level ↔
        witnessGameC3.level <
          (witnessGameC3.linesCleared + (witnessGameC3.scanBoard).2) /
              LEVEL_UP_LINES + 1)) :=
  ⟨by decide, c3_level_update witnessGameC3 (by decide) (by decide)⟩

theorem clearLines_score (g : Game) :
    (g.clearLines).score =
      g.score + SCORE_PER_LINE.getD (g.scanBoard).2 0 * g.level := by
  unfold Game.clearLines
  by_cases h0 : 0 < (g.scanBoard).2
  · simp only [h0, if_true, if_pos]
    split <;> simp
  · have hz : (g.scanBoard).2 = 0 := by omega
    simp [h0, hz, SCORE_PER_LINE]

/-- C4: one `placePiece` call with an active piece that clears `n ≤ 4` lines
increases the score by exactly `SCORE_PER_LINE[n] * level`, where the level is
the one in effect before any level-up from this clear (`n = 0` leaves the
score unchanged, since `SCORE_PER_LINE[0] = 0`). -/
theorem c4_score_award (g : Game) (p : Shape) (hp : g.currentPiece = some p)
    (hn : g.placedScanCount p ≤ 4) :
    (g.placePiece).score =
      g.score + SCORE_PER_LINE.getD (g.placedScanCount p) 0 * g.level := by
  clear hn
  unfold Game.placePiece
  rw [hp]
  show (({ g with board := g.placedBoard p, currentPiece := some p } : Game).clearLines).score = _
  rw [clearLines_score]
  rfl

/-- C4 witness: a 1-wide, 1-high empty board; placing a single-cell piece
fills and clears the only row, awarding `100 * level`. -/
theorem c4_witness :
    (witnessGameC4.currentPiece = some ⟨[(0, 0)], 0⟩ ∧
      witnessGameC4.placedScanCount ⟨[(0, 0)], 0⟩ ≤ 4) ∧
    (witnessGameC4.placePiece).score =
      witnessGameC4.score +
        SCORE_PER_LINE.getD (witnessGameC4.placedScanCount ⟨[(0, 0)], 0⟩) 0 *
          witnessGameC4.level :=
  ⟨by decide, c4_score_award witnessGameC4 ⟨[(0, 0)], 0⟩ (by decide) (by decide)⟩

theorem offset_ok_iff (g : Game) (cx cy : Int) :
    ((if cx < 0 ∨ (g.gridWidth : Int) ≤ cx ∨ cy < 0 then
        decide ((g.gridHeight : Int) ≤ cy)
      else
        !(decide (cy < (g.gridHeight : Int)) && cellBlocked g.board cy.toNat cx.toNat)) = true) ↔
      ((g.gridHeight : Int) ≤ cy ∨
        (0 ≤ cx ∧ cx < (g.gridWidth : Int) ∧ 0 ≤ cy ∧ cy < (g.gridHeight : Int) ∧
          cellBlocked g.board cy.toNat cx.toNat = false)) := by
  cases hB : cellBlocked g.board cy.toNat cx.toNat <;>
    by_cases hc : cx < 0 ∨ (g.gridWidth : Int) ≤ cx ∨ cy < 0 <;>
      simp [hc, hB] <;> omega

/-- C1 (as amended): `isValidMove` accepts a piece at a position iff every
offset either has absolute row `≥ height` (such rows are entirely exempt,
including from the column check) or has its column in `[0, width)`, a
non-negative row `< height`, and an unblocked board cell. -/
theorem c1_valid_move_characterization (g : Game) (p : Shape) (pos : Position) :
    g.isValidMove (some p) pos = true ↔ validSpec g p pos := by
  unfold Game.isValidMove validSpec
  rw [List.all_eq_true]
  constructor
  · intro h off hoff
    exact (offset_ok_iff g (pos.x + off.1) (pos.y + off.2)).mp (h off hoff)
  · intro h off hoff
    exact (offset_ok_iff g (pos.x + off.1) (pos.y + off.2)).mpr (h off hoff)

/-- C1 counterexample: the I-shape held at pivot `(-5, 20)` has every offset
column outside `[0, 10)`, yet `isValidMove` accepts the position — the claim's
"rejects every position in which some offset's column is outside `[0, width)`,
regardless of that offset's row" is false, because the column check is skipped
for rows at or above the board top. -/
theorem c1_counterexample :
    ((-5 : Int) + 0 < 0 ∨ (c1Game.gridWidth : Int) ≤ (-5 : Int) + 0) ∧
    c1Game.isValidMove (some ⟨[(0, 0), (-1, 0), (1, 0), (2, 0)], 0⟩) ⟨-5, 20⟩ = true := by
  decide

/-! ## Preservation lemmas for the engine operations -/

@[simp]
theorem gameState_clearLines (g : Game) : (g.clearLines).gameState = g.gameState := by
  unfold Game.clearLines
  by_cases h : 0 < (g.scanBoard).2
  · simp only [h, if_true]
    split <;> rfl
  · simp only [h, if_false]

@[simp]
theorem gameState_placePiece (g : Game) : (g.placePiece).gameState = g.gameState := by
  unfold Game.placePiece
  cases hp : g.currentPiece with
  | none => rfl
  | some p =>
    simpa using
      gameState_clearLines
        ({ g with board := g.placedBoard p, currentPiece := some p } : Game)

@[simp]
theorem gameState_moveHorizontal (g : Game) (d : Int) :
    (g.moveHorizontal d).gameState = g.gameState := by
  unfold Game.moveHorizontal
  split
  · rfl
  · dsimp only
    split <;> rfl

@[simp]
theorem gameState_moveDown (g : Game) : (g.moveDown).gameState = g.gameState := by
  unfold Game.moveDown
  split
  · rfl
  · dsimp only
    split
    · rfl
    · simpa using gameState_placePiece g

@[simp]
theorem gameState_startDropping (g : Game) :
    (g.startDropping).gameState = g.gameState := by
  unfold Game.startDropping
  split <;> rfl

@[simp]
theorem consumeRng_eq (g : Game) : consumeRng g = { g with rng := g.rng.tail } := by
  unfold consumeRng
  obtain ⟨gw, gh, b, cp, pos, ns, sc, lc, lv, ft, fs, dr, gs, rng⟩ := g
  cases rng <;> rfl

theorem gameState_spawnNewPiece_or (g : Game) :
    (g.spawnNewPiece).gameState = g.gameState ∨
      (g.spawnNewPiece).gameState = GameState.GAME_OVER := by
  unfold Game.spawnNewPiece
  dsimp only
  cases hp : g.currentPiece <;> dsimp only <;> split <;> simp

theorem gameState_spawnNewPiece_or' (g g0 : Game)
    (hgs : g.gameState = g0.gameState) :
    (g.spawnNewPiece).gameState = g0.gameState ∨
      (g.spawnNewPiece).gameState = GameState.GAME_OVER := by
  rcases gameState_spawnNewPiece_or g with h | h
  · exact Or.inl (h.trans hgs)
  · exact Or.inr h

theorem gameState_selectShape_or (g : Game) (i : Int) :
    (g.selectShape i).gameState = g.gameState ∨
      (g.selectShape i).gameState = GameState.GAME_OVER := by
  unfold Game.selectShape
  split <;> dsimp only <;> split
  all_goals
    first
      | exact Or.inl rfl
      | exact gameState_spawnNewPiece_or' _ g (by simp [Game.generateRandomShape])

theorem gameState_update_or (g : Game) (dt : ℚ) (inputs : Inputs) :
    (g.update dt inputs).gameState = g.gameState ∨
      (g.update dt inputs).gameState = GameState.GAME_OVER := by
  unfold Game.update
  split
  · exact Or.inl rfl
  · split
    · exact gameState_selectShape_or g _
    · split
      · left
        dsimp only
        split <;> simp [apply_ite Game.gameState]
      · exact Or.inl rfl

theorem onlyPlayingToGameOver_of_or (g : Game) (x : GameState)
    (h : x = g.gameState ∨ x = GameState.GAME_OVER) :
    x = g.gameState ∨
      (g.gameState = GameState.PLAYING ∧ x = GameState.GAME_OVER) := by
  rcases h with h | h
  · exact Or.inl h
  · cases hg : g.gameState
    · exact Or.inr ⟨rfl, h⟩
    · exact Or.inl h

/-- C8: `GAME_OVER` is terminal.  In a `GAME_OVER` state, `moveDown`,
`moveHorizontal` and `update` are exact no-ops (in particular no board cell
ever changes), and across every operation the only possible status transition
is `PLAYING → GAME_OVER` — the status never leaves `GAME_OVER`. -/
theorem c8_game_over_terminal (g : Game) (h : g.gameState = GameState.GAME_OVER) :
    g.moveDown = g ∧ (∀ d : Int, g.moveHorizontal d = g) ∧
    (∀ (dt : ℚ) (inputs : Inputs), g.update dt inputs = g) ∧
    (∀ g' : Game,
      (∀ i : Int, (g'.selectShape i).gameState = g'.gameState ∨
        (g'.gameState = GameState.PLAYING ∧
          (g'.selectShape i).gameState = GameState.GAME_OVER)) ∧
      (∀ d : Int, (g'.moveHorizontal d).gameState = g'.gameState) ∧
      (g'.moveDown).gameState = g'.gameState ∧
      (g'.startDropping).gameState = g'.gameState ∧
      (g'.placePiece).gameState = g'.gameState ∧
      (g'.clearLines).gameState = g'.gameState ∧
      (∀ (dt : ℚ) (inputs : Inputs),
        (g'.update dt inputs).gameState = g'.gameState ∨
          (g'.gameState = GameState.PLAYING ∧
            (g'.update dt inputs).gameState = GameState.GAME_OVER))) := by
  refine ⟨?_, ?_, ?_, ?_⟩
  · simp [Game.moveDown, h]
  · intro d
    simp [Game.moveHorizontal, h]
  · intro dt inputs
    simp [Game.update, h]
  · intro g'
    refine ⟨?_, ?_, ?_, ?_, ?_, ?_, ?_⟩
    · intro i
      exact onlyPlayingToGameOver_of_or g' _ (gameState_selectShape_or g' i)
    · intro d
      exact gameState_moveHorizontal g' d
    · exact gameState_moveDown g'
    · exact gameState_startDropping g'
    · exact gameState_placePiece g'
    · exact gameState_clearLines g'
    · intro dt inputs
      exact onlyPlayingToGameOver_of_or g' _ (gameState_update_or g' dt inputs)

theorem spawnNewPiece_eq (g : Game) (s : Shape) (hp : g.currentPiece = some s) :
    g.spawnNewPiece =
      (if g.isValidMove (some s)
          ⟨((g.gridWidth / 2 : Nat) : Int), (g.gridHeight : Int) - 1 - shapeMaxDy s⟩ then
        { g with
          isDropping := false
          fallTimer := 0
          currentPosition :=
            ⟨((g.gridWidth / 2 : Nat) : Int), (g.gridHeight : Int) - 1 - shapeMaxDy s⟩ }
      else
        { g with
          isDropping := false
          fallTimer := 0
          currentPosition :=
            ⟨((g.gridWidth / 2 : Nat) : Int), (g.gridHeight : Int) - 1 - shapeMaxDy s⟩
          gameState := GameState.GAME_OVER
          currentPiece := none }) := by
  unfold Game.spawnNewPiece
  rw [hp]
  rfl

/-- C8 witness: a concrete terminal state, with the theorem instantiated at
it. -/
theorem c8_witness :
    witnessGameC8.gameState = GameState.GAME_OVER ∧
    (witnessGameC8.moveDown = witnessGameC8 ∧
      (∀ d : Int, witnessGameC8.moveHorizontal d = witnessGameC8) ∧
      (∀ (dt : ℚ) (inputs : Inputs),
        witnessGameC8.update dt inputs = witnessGameC8) ∧
      (∀ g' : Game,
        (∀ i : Int, (g'.selectShape i).gameState = g'.gameState ∨
          (g'.gameState = GameState.PLAYING ∧
            (g'.selectShape i).gameState = GameState.GAME_OVER)) ∧
        (∀ d : Int, (g'.moveHorizontal d).gameState = g'.gameState) ∧
        (g'.moveDown).gameState = g'.gameState ∧
        (g'.startDropping).gameState = g'.gameState ∧
        (g'.placePiece).gameState = g'.gameState ∧
        (g'.clearLines).gameState = g'.gameState ∧
        (∀ (dt : ℚ) (inputs : Inputs),
          (g'.update dt inputs).gameState = g'.gameState ∨
            (g'.gameState = GameState.PLAYING ∧
              (g'.update dt inputs).gameState = GameState.GAME_OVER)))) :=
  ⟨rfl, c8_game_over_terminal witnessGameC8 rfl⟩

/-- C5: spawning any catalog shape sets the pivot to `(floor(width/2),
height - 1 - maxDy)` where `maxDy` is the maximum `dy` among the shape's
offsets (attained on the shape); an invalid spawn position transitions the
status to `GAME_OVER` and clears the active piece, a valid one keeps the
status and the piece; and spawning is the sole path to `GAME_OVER` — none of
the other primitive operations ever changes the status. -/
theorem c5_spawn_position_game_over (g : Game) (s : Shape)
    (hs : s ∈ SHAPES) (hp : g.currentPiece = some s) :
    (g.spawnNewPiece).currentPosition =
      ⟨((g.gridWidth / 2 : Nat) : Int), (g.gridHeight : Int) - 1 - shapeMaxDy s⟩ ∧
    (∀ off ∈ s.shape, off.2 ≤ shapeMaxDy s) ∧
    (∃ off ∈ s.shape, off.2 = shapeMaxDy s) ∧
    (if g.isValidMove (some s)
        ⟨((g.gridWidth / 2 : Nat) : Int), (g.gridHeight : Int) - 1 - shapeMaxDy s⟩ then
      (g.spawnNewPiece).gameState = g.gameState ∧
        (g.spawnNewPiece).currentPiece = some s
    else
      (g.spawnNewPiece).gameState = GameState.GAME_OVER ∧
        (g.spawnNewPiece).currentPiece = none) ∧
    (∀ g' : Game,
      (g'.clearLines).gameState = g'.gameState ∧
      (g'.placePiece).gameState = g'.gameState ∧
      (∀ d : Int, (g'.moveHorizontal d).gameState = g'.gameState) ∧
      (g'.moveDown).gameState = g'.gameState ∧
      (g'.startDropping).gameState = g'.gameState) := by
  have hmax : (∀ off ∈ s.shape, off.2 ≤ shapeMaxDy s) ∧
      ∃ off ∈ s.shape, off.2 = shapeMaxDy s := by
    have hs' := hs
    simp only [SHAPES, List.mem_cons, List.not_mem_nil, or_false] at hs'
    rcases hs' with rfl | rfl | rfl | rfl | rfl | rfl | rfl <;> decide
  rw [spawnNewPiece_eq g s hp]
  refine ⟨?_, hmax.1, hmax.2, ?_, ?_⟩
  · split <;> rfl
  · by_cases hv : g.isValidMove (some s)
        ⟨((g.gridWidth / 2 : Nat) : Int), (g.gridHeight : Int) - 1 - shapeMaxDy s⟩ = true
    · rw [if_pos hv, if_pos hv]
      exact ⟨rfl, hp⟩
    · rw [if_neg hv, if_neg hv]
      exact ⟨rfl, rfl⟩
  · intro g'
    exact ⟨gameState_clearLines g', gameState_placePiece g',
      fun d => gameState_moveHorizontal g' d, gameState_moveDown g',
      gameState_startDropping g'⟩

/-- C5 witness: the I-shape spawning on the default empty board. -/
theorem c5_witness :
    ((⟨[(0, 0), (-1, 0), (1, 0), (2, 0)], 0⟩ : Shape) ∈ SHAPES ∧
      witnessGameC5.currentPiece =
        some ⟨[(0, 0), (-1, 0), (1, 0), (2, 0)], 0⟩) ∧
    ((witnessGameC5.spawnNewPiece).currentPosition =
      ⟨((witnessGameC5.gridWidth / 2 : Nat) : Int),
        (witnessGameC5.gridHeight : Int) - 1 -
          shapeMaxDy ⟨[(0, 0), (-1, 0), (1, 0), (2, 0)], 0⟩⟩ ∧
    (∀ off ∈ (⟨[(0, 0), (-1, 0), (1, 0), (2, 0)], 0⟩ : Shape).shape,
      off.2 ≤ shapeMaxDy ⟨[(0, 0), (-1, 0), (1, 0), (2, 0)], 0⟩) ∧
    (∃ off ∈ (⟨[(0, 0), (-1, 0), (1, 0), (2, 0)], 0⟩ : Shape).shape,
      off.2 = shapeMaxDy ⟨[(0, 0), (-1, 0), (1, 0), (2, 0)], 0⟩) ∧
    (if witnessGameC5.isValidMove (some ⟨[(0, 0), (-1, 0), (1, 0), (2, 0)], 0⟩)
        ⟨((witnessGameC5.gridWidth / 2 : Nat) : Int),
          (witnessGameC5.gridHeight : Int) - 1 -
            shapeMaxDy ⟨[(0, 0), (-1, 0), (1, 0), (2, 0)], 0⟩⟩ then
      (witnessGameC5.spawnNewPiece).gameState = witnessGameC5.gameState ∧
        (witnessGameC5.spawnNewPiece).currentPiece =
          some ⟨[(0, 0), (-1, 0), (1, 0), (2, 0)], 0⟩
    else
      (witnessGameC5.spawnNewPiece).gameState = GameState.GAME_OVER ∧
        (witnessGameC5.spawnNewPiece).currentPiece = none) ∧
    (∀ g' : Game,
      (g'.clearLines).gameState = g'.gameState ∧
      (g'.placePiece).gameState = g'.gameState ∧
      (∀ d : Int, (g'.moveHorizontal d).gameState = g'.gameState) ∧
      (g'.moveDown).gameState = g'.gameState ∧
      (g'.startDropping).gameState = g'.gameState)) :=
  ⟨⟨by decide, rfl⟩,
    c5_spawn_position_game_over witnessGameC5
      ⟨[(0, 0), (-1, 0), (1, 0), (2, 0)], 0⟩ (by decide) rfl⟩

/-! ## Field-preservation lemmas -/

@[simp]
theorem spawnNewPiece_fields (g : Game) :
    (g.spawnNewPiece).board = g.board ∧
    (g.spawnNewPiece).gridWidth = g.gridWidth ∧
    (g.spawnNewPiece).gridHeight = g.gridHeight ∧
    (g.spawnNewPiece).nextShapes = g.nextShapes := by
  unfold Game.spawnNewPiece
  dsimp only
  cases hp : g.currentPiece <;> dsimp only <;> split <;> simp

@[simp]
theorem selectShape_fields (g : Game) (i : Int) :
    (g.selectShape i).board = g.board ∧
    (g.selectShape i).gridWidth = g.gridWidth ∧
    (g.selectShape i).gridHeight = g.gridHeight := by
  unfold Game.selectShape
  split <;> dsimp only <;> split
  all_goals
    first
      | exact ⟨rfl, rfl, rfl⟩
      | simp [Game.generateRandomShape]

@[simp]
theorem clearLines_fields (g : Game) :
    (g.clearLines).gridWidth = g.gridWidth ∧
    (g.clearLines).gridHeight = g.gridHeight ∧
    (g.clearLines).nextShapes = g.nextShapes := by
  unfold Game.clearLines
  by_cases h : 0 < (g.scanBoard).2
  · simp only [h, if_true]
    split <;> simp
  · simp only [h, if_false]
    simp

theorem board_clearLines (g : Game) : (g.clearLines).board = (g.scanBoard).1 := by
  unfold Game.clearLines
  by_cases h : 0 < (g.scanBoard).2
  · simp only [h, if_true]
    split <;> rfl
  · simp only [h, if_false]

@[simp]
theorem placePiece_fields (g : Game) :
    (g.placePiece).gridWidth = g.gridWidth ∧
    (g.placePiece).gridHeight = g.gridHeight ∧
    (g.placePiece).nextShapes = g.nextShapes := by
  unfold Game.placePiece
  cases hp : g.currentPiece with
  | none => exact ⟨rfl, rfl, rfl⟩
  | some p =>
    dsimp only
    simpa using
      clearLines_fields ({ g with board := g.placedBoard p, currentPiece := some p } : Game)

@[simp]
theorem moveHorizontal_fields (g : Game) (d : Int) :
    (g.moveHorizontal d).board = g.board ∧
    (g.moveHorizontal d).gridWidth = g.gridWidth ∧
    (g.moveHorizontal d).gridHeight = g.gridHeight ∧
    (g.moveHorizontal d).nextShapes = g.nextShapes := by
  unfold Game.moveHorizontal
  split
  · simp
  · dsimp only
    split <;> simp

@[simp]
theorem startDropping_fields (g : Game) :
    (g.startDropping).board = g.board ∧
    (g.startDropping).gridWidth = g.gridWidth ∧
    (g.startDropping).gridHeight = g.gridHeight ∧
    (g.startDropping).nextShapes = g.nextShapes := by
  unfold Game.startDropping
  split <;> simp

@[simp]
theorem moveDown_fields (g : Game) :
    (g.moveDown).gridWidth = g.gridWidth ∧
    (g.moveDown).gridHeight = g.gridHeight ∧
    (g.moveDown).nextShapes = g.nextShapes := by
  unfold Game.moveDown
  split
  · simp
  · dsimp only
    split
    · simp
    · simpa using placePiece_fields g

theorem update_grid_fields (g : Game) (dt : ℚ) (inputs : Inputs) :
    (g.update dt inputs).gridWidth = g.gridWidth ∧
    (g.update dt inputs).gridHeight = g.gridHeight := by
  unfold Game.update
  split
  · simp
  · split
    · exact ⟨(selectShape_fields g _).2.1, (selectShape_fields g _).2.2⟩
    · split
      · dsimp only
        split <;>
          simp [apply_ite Game.gridWidth, apply_ite Game.gridHeight]
      · simp

/-! ## Small list lemmas -/

theorem get?_eq_some_getD {α : Type} (l : List α) (n : Nat) (d : α)
    (h : n < l.length) : l.get? n = some (l.getD n d) := by
  induction l generalizing n with
  | nil => simp at h
  | cons a t ih =>
    cases n with
    | zero => rfl
    | succ m => exact ih m (by simpa using h)

theorem length_eraseIdx_succ {α : Type} (l : List α) (n : Nat)
    (h : n < l.length) : (l.eraseIdx n).length + 1 = l.length := by
  induction l generalizing n with
  | nil => simp at h
  | cons a t ih =>
    cases n with
    | zero => rfl
    | succ m =>
      have hm := ih m (by simpa using h)
      show (a :: t.eraseIdx m).length + 1 = t.length + 1
      simp only [List.length_cons]
      omega

theorem mem_of_mem_set {α : Type} (l : List α) (n : Nat) (a x : α)
    (hx : x ∈ l.set n a) : x ∈ l ∨ x = a := by
  induction l generalizing n with
  | nil => simp [List.set] at hx
  | cons b t ih =>
    cases n with
    | zero =>
      rcases List.mem_cons.mp hx with rfl | hmem
      · exact Or.inr rfl
      · exact Or.inl (List.mem_cons_of_mem _ hmem)
    | succ m =>
      rcases List.mem_cons.mp hx with rfl | hmem
      · exact Or.inl (List.mem_cons_self _ _)
      · rcases ih m hmem with h | h
        · exact Or.inl (List.mem_cons_of_mem _ h)
        · exact Or.inr h

/-! ## The `selectShape` splice equation -/

theorem effIndex_lt (g : Game) (i : Int) (h : 0 < g.nextShapes.length) :
    effIndex g i < g.nextShapes.length := by
  unfold effIndex
  split
  · simpa using h
  · next hcond =>
    push_neg at hcond
    omega

theorem selectShape_eq (g : Game) (i : Int) (s : Shape)
    (hs : g.nextShapes.get? (effIndex g i) = some s) :
    g.selectShape i =
      Game.spawnNewPiece
        { g with
          currentPiece := some s
          nextShapes := g.nextShapes.eraseIdx (effIndex g i) ++ [nextRandomShape g]
          rng := g.rng.tail } := by
  unfold effIndex at hs
  unfold Game.selectShape
  dsimp only
  rw [hs]
  simp only [Game.generateRandomShape, consumeRng_eq]
  rfl

/-- C7: in an awaiting-selection state with a 3-shape preview queue, an
out-of-range index behaves identically to index 0; in all cases the chosen
shape is removed (preserving the order of the rest), one freshly generated
shape is appended so the queue again holds exactly 3 shapes, and the removed
shape is handed to the spawn step as the active piece. -/
theorem c7_select_shape_out_of_range (g : Game) (i : Int)
    (hpiece : g.currentPiece = none) (hlen : g.nextShapes.length = 3) :
    ((i < 0 ∨ 3 ≤ i) → g.selectShape i = g.selectShape 0) ∧
    (g.selectShape i).nextShapes =
      g.nextShapes.eraseIdx (effIndex g i) ++ [nextRandomShape g] ∧
    (g.selectShape i).nextShapes.length = 3 ∧
    g.selectShape i =
      Game.spawnNewPiece
        { g with
          currentPiece := some (g.nextShapes.getD (effIndex g i) ⟨[], 0⟩)
          nextShapes := g.nextShapes.eraseIdx (effIndex g i) ++ [nextRandomShape g]
          rng := g.rng.tail } := by
  clear hpiece
  have hpos : 0 < g.nextShapes.length := by omega
  have hlt := effIndex_lt g i hpos
  have hs := get?_eq_some_getD g.nextShapes (effIndex g i) ⟨[], 0⟩ hlt
  have heq := selectShape_eq g i _ hs
  refine ⟨?_, ?_, ?_, heq⟩
  · intro hi
    have h1 : effIndex g i = 0 := by
      unfold effIndex
      rw [if_pos]
      · rfl
      · rw [hlen]
        omega
    have h2 : effIndex g 0 = 0 := by
      unfold effIndex
      rw [if_neg]
      · rfl
      · rw [hlen]
        omega
    have hs0 := get?_eq_some_getD g.nextShapes (effIndex g 0) ⟨[], 0⟩
      (effIndex_lt g 0 hpos)
    have heq0 := selectShape_eq g 0 _ hs0
    rw [heq, heq0, h1, h2]
  · rw [heq, (spawnNewPiece_fields _).2.2.2]
  · rw [heq, (spawnNewPiece_fields _).2.2.2]
    show (g.nextShapes.eraseIdx (effIndex g i) ++ [nextRandomShape g]).length = 3
    have := length_eraseIdx_succ g.nextShapes (effIndex g i) hlt
    simp only [List.length_append, List.length_singleton]
    omega

/-- C7 witness: selecting the out-of-range index 5 from a 3-shape queue. -/
theorem c7_witness :
    (witnessGameC7.currentPiece = none ∧ witnessGameC7.nextShapes.length = 3) ∧
    ((((5 : Int) < 0 ∨ 3 ≤ (5 : Int)) →
        witnessGameC7.selectShape 5 = witnessGameC7.selectShape 0) ∧
      (witnessGameC7.selectShape 5).nextShapes =
        witnessGameC7.nextShapes.eraseIdx (effIndex witnessGameC7 5) ++
          [nextRandomShape witnessGameC7] ∧
      (witnessGameC7.selectShape 5).nextShapes.length = 3 ∧
      witnessGameC7.selectShape 5 =
        Game.spawnNewPiece
          { witnessGameC7 with
            currentPiece :=
              some (witnessGameC7.nextShapes.getD (effIndex witnessGameC7 5) ⟨[], 0⟩)
            nextShapes :=
              witnessGameC7.nextShapes.eraseIdx (effIndex witnessGameC7 5) ++
                [nextRandomShape witnessGameC7]
            rng := witnessGameC7.rng.tail }) :=
  ⟨⟨rfl, rfl⟩, c7_select_shape_out_of_range witnessGameC7 5 rfl rfl⟩

/-- C10: `selectShape` does not check for an active piece: in a playing state
with an active piece and a non-empty queue, calling it directly behaves
exactly as it would with no active piece — the old piece is discarded without
any board write, the queue is still spliced and refilled, and the selected
shape is handed to the spawn step; only `update`'s guard keeps the per-frame
entry point from reaching `selectShape` while a piece is falling (for every
input, `update` leaves the preview queue untouched in such a state). -/
theorem c10_select_shape_unguarded (g : Game) (p : Shape) (i : Int)
    (hstate : g.gameState = GameState.PLAYING) (hp : g.currentPiece = some p)
    (hq : g.nextShapes ≠ []) :
    g.selectShape i = ({ g with currentPiece := none } : Game).selectShape i ∧
    (g.selectShape i).board = g.board ∧
    (g.selectShape i).nextShapes =
      g.nextShapes.eraseIdx (effIndex g i) ++ [nextRandomShape g] ∧
    g.selectShape i =
      Game.spawnNewPiece
        { g with
          currentPiece := some (g.nextShapes.getD (effIndex g i) ⟨[], 0⟩)
          nextShapes := g.nextShapes.eraseIdx (effIndex g i) ++ [nextRandomShape g]
          rng := g.rng.tail } ∧
    (∀ (dt : ℚ) (inputs : Inputs),
      (g.update dt inputs).nextShapes = g.nextShapes) := by
  have hpos : 0 < g.nextShapes.length := List.length_pos.mpr hq
  have hlt := effIndex_lt g i hpos
  have hs := get?_eq_some_getD g.nextShapes (effIndex g i) ⟨[], 0⟩ hlt
  have heq := selectShape_eq g i _ hs
  refine ⟨?_, ?_, ?_, heq, ?_⟩
  · have hs' : ({ g with currentPiece := none } : Game).nextShapes.get?
        (effIndex ({ g with currentPiece := none } : Game) i) =
        some (g.nextShapes.getD (effIndex g i) ⟨[], 0⟩) := hs
    rw [heq, selectShape_eq ({ g with currentPiece := none } : Game) i _ hs']
    rfl
  · rw [heq, (spawnNewPiece_fields _).1]
  · rw [heq, (spawnNewPiece_fields _).2.2.2]
  · intro dt inputs
    have h1 : ¬(g.gameState ≠ GameState.PLAYING) := by
      rw [hstate]
      simp
    have h2 : ¬(g.currentPiece = none ∧ inputs.selectShape ≠ none) := by
      rw [hp]
      simp
    have h3 : g.currentPiece ≠ none := by
      rw [hp]
      simp
    unfold Game.update
    rw [if_neg h1, if_neg h2, if_pos h3]
    dsimp only
    split <;> simp [apply_ite Game.nextShapes]

/-- C10 witness: a playing state with the O-shape still falling. -/
theorem c10_witness :
    (witnessGameC10.gameState = GameState.PLAYING ∧
      witnessGameC10.currentPiece = some ⟨[(0, 0), (1, 0), (0, 1), (1, 1)], 1⟩ ∧
      witnessGameC10.nextShapes ≠ []) ∧
    (witnessGameC10.selectShape 1 =
        ({ witnessGameC10 with currentPiece := none } : Game).selectShape 1 ∧
      (witnessGameC10.selectShape 1).board = witnessGameC10.board ∧
      (witnessGameC10.selectShape 1).nextShapes =
        witnessGameC10.nextShapes.eraseIdx (effIndex witnessGameC10 1) ++
          [nextRandomShape witnessGameC10] ∧
      witnessGameC10.selectShape 1 =
        Game.spawnNewPiece
          { witnessGameC10 with
            currentPiece :=
              some (witnessGameC10.nextShapes.getD (effIndex witnessGameC10 1) ⟨[], 0⟩)
            nextShapes :=
              witnessGameC10.nextShapes.eraseIdx (effIndex witnessGameC10 1) ++
                [nextRandomShape witnessGameC10]
            rng := witnessGameC10.rng.tail } ∧
      (∀ (dt : ℚ) (inputs : Inputs),
        (witnessGameC10.update dt inputs).nextShapes = witnessGameC10.nextShapes)) :=
  ⟨⟨rfl, rfl, by decide⟩,
    c10_select_shape_unguarded witnessGameC10
      ⟨[(0, 0), (1, 0), (0, 1), (1, 1)], 1⟩ 1 rfl rfl (by decide)⟩

/-! ## Dimension-invariant lemmas -/

theorem boardDims_setCell (w h : Nat) (b : List (List Nat)) (y x v : Nat)
    (hd : boardDims w h b) : boardDims w h (setCell b y x v) := by
  unfold setCell
  cases hrow : b.get? y with
  | none => exact hd
  | some row =>
    obtain ⟨hlen, hrows⟩ := hd
    refine ⟨by simp [hlen], ?_⟩
    intro r hr
    rcases mem_of_mem_set _ _ _ _ hr with hmem | rfl
    · exact hrows r hmem
    · have hmem : row ∈ b := List.get?_mem hrow
      simp [hrows row hmem]

theorem boardDims_foldl_place (w h : Nat) (pos : Position) (c : Nat)
    (offs : List (Int × Int)) (b : List (List Nat)) (hd : boardDims w h b) :
    boardDims w h
      (offs.foldl
        (fun b' off =>
          let boardX := pos.x + off.1
          let boardY := pos.y + off.2
          if 0 ≤ boardY ∧ boardY < (h : Int) ∧ 0 ≤ boardX ∧ boardX < (w : Int) then
            setCell b' boardY.toNat boardX.toNat c
          else b')
        b) := by
  induction offs generalizing b with
  | nil => exact hd
  | cons o t ih =>
    apply ih
    dsimp only
    split
    · exact boardDims_setCell _ _ _ _ _ _ hd
    · exact hd

theorem boardDims_placedBoard (g : Game) (p : Shape) (hd : dimsOk g) :
    boardDims g.gridWidth g.gridHeight (g.placedBoard p) := by
  unfold Game.placedBoard
  exact boardDims_foldl_place g.gridWidth g.gridHeight g.currentPosition
    (p.colorIndex + 1) p.shape g.board hd

theorem dimsOk_clearLines (g : Game) (hd : dimsOk g) : dimsOk (g.clearLines) := by
  unfold dimsOk
  rw [(clearLines_fields g).1, (clearLines_fields g).2.1, board_clearLines]
  unfold Game.scanBoard
  obtain ⟨hlen, hrows⟩ := hd
  refine ⟨?_, ?_⟩
  · rw [scanRowsFuel_length]
    exact hlen
  · intro row hr
    rcases scanRowsFuel_mem _ _ _ _ hr with hmem | rfl
    · exact hrows row hmem
    · simp

theorem dimsOk_selectShape (g : Game) (i : Int) (hd : dimsOk g) :
    dimsOk (g.selectShape i) := by
  unfold dimsOk
  rw [(selectShape_fields g i).1, (selectShape_fields g i).2.1,
    (selectShape_fields g i).2.2]
  exact hd

theorem dimsOk_moveHorizontal (g : Game) (d : Int) (hd : dimsOk g) :
    dimsOk (g.moveHorizontal d) := by
  unfold dimsOk
  rw [(moveHorizontal_fields g d).1, (moveHorizontal_fields g d).2.1,
    (moveHorizontal_fields g d).2.2.1]
  exact hd

theorem dimsOk_startDropping (g : Game) (hd : dimsOk g) :
    dimsOk g.startDropping := by
  unfold dimsOk
  rw [(startDropping_fields g).1, (startDropping_fields g).2.1,
    (startDropping_fields g).2.2.1]
  exact hd

theorem dimsOk_placePiece (g : Game) (hd : dimsOk g) : dimsOk g.placePiece := by
  unfold Game.placePiece
  cases hp : g.currentPiece with
  | none => exact hd
  | some p =>
    dsimp only
    have hG1 : dimsOk ({ g with board := g.placedBoard p, currentPiece := some p } : Game) :=
      boardDims_placedBoard g p hd
    exact dimsOk_clearLines _ hG1

theorem dimsOk_moveDown (g : Game) (hd : dimsOk g) : dimsOk g.moveDown := by
  unfold Game.moveDown
  split
  · exact hd
  · dsimp only
    split
    · exact hd
    · exact dimsOk_placePiece g hd

theorem dimsOk_ite (c : Prop) [Decidable c] (a b : Game)
    (ha : dimsOk a) (hb : dimsOk b) : dimsOk (if c then a else b) := by
  split
  · exact ha
  · exact hb

theorem dimsOk_update (g : Game) (dt : ℚ) (inputs : Inputs) (hd : dimsOk g) :
    dimsOk (g.update dt inputs) := by
  unfold Game.update
  split
  · exact hd
  · split
    · exact dimsOk_selectShape g _ hd
    · split
      · dsimp only
        set g1 : Game := if inputs.moveLeft then g.moveHorizontal (-1) else g with hg1
        set g2 : Game := if inputs.moveRight then g1.moveHorizontal 1 else g1 with hg2
        set g3 : Game := if inputs.drop then g2.startDropping else g2 with hg3
        have h1 : dimsOk g1 := by
          rw [hg1]
          exact dimsOk_ite _ _ _ (dimsOk_moveHorizontal g (-1) hd) hd
        have h2 : dimsOk g2 := by
          rw [hg2]
          exact dimsOk_ite _ _ _ (dimsOk_moveHorizontal g1 1 h1) h1
        have h3 : dimsOk g3 := by
          rw [hg3]
          exact dimsOk_ite _ _ _ (dimsOk_startDropping g2 h2) h2
        have h4 : dimsOk ({ g3 with fallTimer := g3.fallTimer + dt } : Game) := h3
        exact dimsOk_ite _ _ _ (dimsOk_moveDown _ h4) h4
      · exact hd

theorem dimsOk_pushRandomShapes (n : Nat) (x : Game) (hx : dimsOk x) :
    dimsOk (pushRandomShapes n x) := by
  induction n generalizing x with
  | zero => exact hx
  | succ m ih =>
    unfold pushRandomShapes
    dsimp only [Game.generateRandomShape]
    apply ih
    rw [consumeRng_eq]
    exact hx

theorem dimsOk_init (cfg : GridConfig) (rng : List Nat) :
    dimsOk ((Game.new cfg rng).init) := by
  unfold Game.init
  dsimp only
  apply dimsOk_selectShape
  apply dimsOk_pushRandomShapes
  refine ⟨by simp, ?_⟩
  intro row hrow
  have hrep := List.eq_of_mem_replicate hrow
  subst hrep
  simp

/-- C9: every engine state reachable from initialization satisfies the board
dimension invariant — exactly `height` rows, each of exactly `width` cells —
and since every listed operation maps reachable states to reachable states,
the invariant holds both before and after each operation; the stored
dimensions themselves are never changed by any operation. -/
theorem c9_dims_invariant (g : Game) (h : Reachable g) :
    g.board.length = g.gridHeight ∧ ∀ row ∈ g.board, row.length = g.gridWidth := by
  induction h with
  | init cfg rng => exact dimsOk_init cfg rng
  | selectShape i _ ih => exact dimsOk_selectShape _ i ih
  | moveHorizontal d _ ih => exact dimsOk_moveHorizontal _ d ih
  | moveDown _ ih => exact dimsOk_moveDown _ ih
  | startDropping _ ih => exact dimsOk_startDropping _ ih
  | placePiece _ ih => exact dimsOk_placePiece _ ih
  | clearLines _ ih => exact dimsOk_clearLines _ ih
  | update dt inputs _ ih => exact dimsOk_update _ dt inputs ih

/-- C9 witness: the invariant instantiated at a concrete freshly initialized
engine. -/
theorem c9_witness :
    Reachable witnessGameC9 ∧
    (witnessGameC9.board.length = witnessGameC9.gridHeight ∧
      ∀ row ∈ witnessGameC9.board, row.length = witnessGameC9.gridWidth) :=
  ⟨Reachable.init ⟨some 4, some 5⟩ [0, 1, 2, 3],
    c9_dims_invariant witnessGameC9
      (Reachable.init ⟨some 4, some 5⟩ [0, 1, 2, 3])⟩

/-! ## Determinism (C6) -/

/-- C6 counterexample: two states that agree on every `Game`-class field the
claim lists (board, active piece, position, preview queue, score, lines,
level, timers, speed, flags, status) but carry different pending
`Math.random` draws produce different preview queues after one identical
`update(0, select slot 0)` call — the engine as written is not deterministic
in its observable state alone, because `generateRandomShape` consumes the
impure random source during selection. -/
theorem c6_counterexample :
    c6GameA.board = c6GameB.board ∧
    c6GameA.currentPiece = c6GameB.currentPiece ∧
    c6GameA.currentPosition = c6GameB.currentPosition ∧
    c6GameA.nextShapes = c6GameB.nextShapes ∧
    c6GameA.score = c6GameB.score ∧
    c6GameA.linesCleared = c6GameB.linesCleared ∧
    c6GameA.level = c6GameB.level ∧
    c6GameA.fallTimer = c6GameB.fallTimer ∧
    c6GameA.currentFallSpeed = c6GameB.currentFallSpeed ∧
    c6GameA.isDropping = c6GameB.isDropping ∧
    c6GameA.gameState = c6GameB.gameState ∧
    (c6GameA.update 0 selectInputs).nextShapes ≠
      (c6GameB.update 0 selectInputs).nextShapes := by
  decide

/-- C6 (as amended): the engine is deterministic once the pending random
draws are part of the state — two runs started from states that agree on
every field, the random stream included, and driven with identical
`(deltaTime, inputs)` sequences are identical after every step. -/
theorem c6_determinism_with_rng (g1 g2 : Game)
    (hboard : g1.board = g2.board) (hpiece : g1.currentPiece = g2.currentPiece)
    (hpos : g1.currentPosition = g2.currentPosition)
    (hqueue : g1.nextShapes = g2.nextShapes) (hscore : g1.score = g2.score)
    (hlines : g1.linesCleared = g2.linesCleared) (hlevel : g1.level = g2.level)
    (htimer : g1.fallTimer = g2.fallTimer)
    (hspeed : g1.currentFallSpeed = g2.currentFallSpeed)
    (hdrop : g1.isDropping = g2.isDropping) (hstate : g1.gameState = g2.gameState)
    (hw : g1.gridWidth = g2.gridWidth) (hh : g1.gridHeight = g2.gridHeight)
    (hrng : g1.rng = g2.rng) :
    ∀ (steps : List (ℚ × Inputs)) (n : Nat),
      runUpdates g1 (steps.take n) = runUpdates g2 (steps.take n) := by
  have hgg : g1 = g2 := by
    obtain ⟨a1, b1, c1, d1, e1, f1, s1, l1, v1, t1, p1, q1, st1, r1⟩ := g1
    obtain ⟨a2, b2, c2, d2, e2, f2, s2, l2, v2, t2, p2, q2, st2, r2⟩ := g2
    simp only [Game.mk.injEq]
    exact ⟨hw, hh, hboard, hpiece, hpos, hqueue, hscore, hlines, hlevel,
      htimer, hspeed, hdrop, hstate, hrng⟩
  intro steps n
  rw [hgg]

/-- C6 witness: the amended determinism applied to a concrete state and a
one-frame input sequence. -/
theorem c6_witness :
    c6GameA.board = c6GameA.board ∧
    runUpdates c6GameA ([((0 : ℚ), selectInputs)].take 1) =
      runUpdates c6GameA ([((0 : ℚ), selectInputs)].take 1) :=
  ⟨rfl,
    c6_determinism_with_rng c6GameA c6GameA rfl rfl rfl rfl rfl rfl rfl rfl rfl
      rfl rfl rfl rfl rfl [((0 : ℚ), selectInputs)] 1⟩

end Tetris
